import Mathlib

/-!
Verification of the RESPINOW-Hub validation engine
(src/validation_functions.py and src/main.py) via a shallow embedding.

Modelling conventions:
* A parsed table (pandas DataFrame read with parse_dates on the two date
  columns) is a Table: a list of column names plus a list of rows whose
  date fields are absolute day numbers (Int).  Calendar dates are mapped
  to day numbers by a proleptic-Gregorian day count; pandas Timestamp
  range limits (1677..2262) are not modelled, nor are non-ISO date
  formats accepted by pd.to_datetime (the checks at hand only exercise
  the ISO yyyy-mm-dd format used by the repository).
* quantile is Option Rat (NaN = none); float literals such as 0.025 are
  modelled as the corresponding rationals (written with mkRat), which is
  faithful because the code only ever compares such values for equality
  against constants parsed from the same decimal strings.
* value is Option String: the astype(str) rendering of a cell, none for
  a missing (NaN) cell.
* A Python check that raises is modelled as Except.error (); the checks
  raise when a column they access is absent from the table, and
  check_target_dates additionally raises on every empty table (see its
  doc comment).
* The two checks that assign helper columns in place return an updated
  Table; the extra columns are stored in the itd / noq fields together
  with their names in cols.
-/

deriving instance DecidableEq for Except

/-- One row of a forecast submission table, as parsed by
pd.read_csv(..., parse_dates = ['forecast_date', 'target_end_date']).  -/
structure Row where
  location : String
  age_group : String
  forecast_date : Int
  target_end_date : Int
  horizon : Int
  type : String
  quantile : Option Rat
  value : Option String
deriving DecidableEq

/-- Validation errors.  Each constructor stands for one f-string message of
validation_functions.py and carries the data interpolated into it.  -/
inductive Err where
  | badPath
  | badFilenameDate (s : String)
  | multipleDates (vals : List String)
  | badColumnDate (s : String)
  | dateMismatch (base : String) (colDate : Int)
  | notFresh (fileDate today : Int)
  | missingCols (cs : List String)
  | additionalCols (cs : List String)
  | invalidLocation (vals : List String)
  | invalidQuantile (vals : List Rat)
  | invalidType (vals : List String)
  | invalidAgeGroup (vals : List String)
  | invalidHorizon (vals : List Int)
  | missingValues (n : Nat)
  | nonNumericValues (vals : List String)
  | meanWithQuantile (n : Nat)
  | duplicatedTargets (rows : List Row)
  | invalidTargetDates (triples : List (Int × Int × Int))
  | notAllQuantiles (groups : List ((String × String × Int × Int) × List Rat))
  | fatal (checkName : String)
  | notValidSubmission
deriving DecidableEq

/-- A parsed table.  cols is df.columns; rows carries the eight schema
fields of every row (extra user columns are tracked by name only, their
cell values are never read by any check).  itd / noq hold the helper
columns assigned in place by check_target_dates / check_quantiles.  -/
structure Table where
  cols : List String
  rows : List Row
  itd : Option (List Bool) := none
  noq : Option (List (Option Nat)) := none
deriving DecidableEq

/-- A submission file before parsing: its path, its header, the raw
forecast_date column as read by the plain pd.read_csv inside
check_forecast_date, and its rows as parsed with parse_dates.  -/
structure SubmissionFile where
  path : String
  cols : List String
  rawForecastDate : List String
  rows : List Row
deriving DecidableEq

/- ## Basic list utilities -/

/-- First-occurrence deduplication, the order kept by pandas unique().  -/
def dedupFirst {α : Type} [DecidableEq α] (l : List α) : List α :=
  l.foldl (fun acc a => if a ∈ acc then acc else acc ++ [a]) []

/-- startsWithL l pat is true iff pat is an initial segment of l.  -/
def startsWithL : List Char → List Char → Bool
  | _, [] => true
  | [], _ :: _ => false
  | a :: as, b :: bs => (a == b) && startsWithL as bs

/-- containsL hay needle: needle occurs contiguously inside hay
(the Python `in` test on strings).  -/
def containsL (hay needle : List Char) : Bool :=
  startsWithL hay needle ||
    match hay with
    | [] => false
    | _ :: t => containsL t needle

/-- substring test on strings.  -/
def containsS (hay needle : String) : Bool := containsL hay.data needle.data

/-- os.path.basename: the part of the path after the last slash.  -/
def basenameL (l : List Char) : List Char :=
  l.foldl (fun acc c => if c = '/' then [] else acc ++ [c]) []

/- ## Calendar dates -/

/-- Leap year in the Gregorian calendar.  -/
def isLeap (y : Nat) : Bool := (y % 4 == 0 && y % 100 != 0) || y % 400 == 0

/-- Number of days of month m (1-12) of year y.  -/
def daysInMonth (y m : Nat) : Nat :=
  if m = 2 then (if isLeap y then 29 else 28)
  else if m = 4 ∨ m = 6 ∨ m = 9 ∨ m = 11 then 30 else 31

/-- Days in year y before the first day of month m.  -/
def daysBeforeMonth (y m : Nat) : Nat :=
  (List.range m).foldl (fun acc i => if 1 ≤ i then acc + daysInMonth y i else acc) 0

/-- Absolute day number of the calendar date y-m-d.  -/
def dayNumber (y m d : Nat) : Int :=
  (365 * (y - 1) + (y - 1) / 4 - (y - 1) / 100 + (y - 1) / 400
    + daysBeforeMonth y m + d : Nat)

/-- Numeric value of a decimal digit character.  -/
def digitVal (c : Char) : Nat := c.toNat - 48

/-- parseDate s: pd.to_datetime(s).date() restricted to the ISO
yyyy-mm-dd format, as an absolute day number; none when parsing fails.  -/
def parseDate (s : String) : Option Int :=
  match s.data with
  | [y1, y2, y3, y4, s1, m1, m2, s2, d1, d2] =>
    if y1.isDigit && y2.isDigit && y3.isDigit && y4.isDigit &&
       (s1 == '-') && m1.isDigit && m2.isDigit && (s2 == '-') &&
       d1.isDigit && d2.isDigit then
      let y := 1000 * digitVal y1 + 100 * digitVal y2 + 10 * digitVal y3 + digitVal y4
      let m := 10 * digitVal m1 + digitVal m2
      let d := 10 * digitVal d1 + digitVal d2
      if 1 ≤ m ∧ m ≤ 12 ∧ 1 ≤ d ∧ d ≤ daysInMonth y m ∧ 1 ≤ y then
        some (dayNumber y m d)
      else none
    else none
  | _ => none

/-- The first ten characters of the base name of a path
(os.path.basename(filepath)[:10]).  -/
def fnDate10 (p : String) : String := String.mk ((basenameL p.data).take 10)

/- ## Fixed constants of validation_functions.py -/

def VALID_COLUMNS : List String :=
  ["location", "age_group", "forecast_date", "target_end_date", "horizon",
   "type", "quantile", "value"]

def LOCATION_CODES : List String :=
  ["DE", "DE-BB-BE", "DE-BW", "DE-BY", "DE-HE", "DE-MV", "DE-NI-HB",
   "DE-NW", "DE-RP-SL", "DE-SH-HH", "DE-SN", "DE-ST", "DE-TH"]

def VALID_QUANTILES : List Rat :=
  [mkRat 25 1000, mkRat 1 10, mkRat 1 4, mkRat 1 2, mkRat 3 4, mkRat 9 10,
   mkRat 975 1000]

def VALID_TYPES : List String := ["mean", "quantile"]

def VALID_AGE_GROUPS : List String :=
  ["00+", "00-04", "05-14", "15-34", "35-59", "60-79", "80+", "60+"]

def VALID_HORIZONS : List Int := [-3, -2, -1, 0, 1, 2, 3, 4]

/- ## The individual checks

Each check of validation_functions.py that runs inside the wrapped loop
of check_forecast is modelled as Table -> Except Unit (List Err) x Table:
the first component is the returned error list (ok, with [] for a falsy
return) or Except.error () when the Python function would raise; the
second component is the DataFrame afterwards (the two checks that assign
helper columns return an updated table, all others return it unchanged). -/

/-- Name added to df.columns by an in-place column assignment; pandas
keeps the column list unchanged when the name already exists.  -/
def addCol (cols : List String) (c : String) : List String :=
  if c ∈ cols then cols else cols ++ [c]

/-- check_header: symmetric difference of df.columns against
VALID_COLUMNS, one error per non-empty side.  Never raises.  -/
def check_header_errs (cols : List String) : List Err :=
  let missing := VALID_COLUMNS.filter (fun c => decide (c ∉ cols))
  let additional := cols.filter (fun c => decide (c ∉ VALID_COLUMNS))
  (if missing ≠ [] then [Err.missingCols missing] else []) ++
  (if additional ≠ [] then [Err.additionalCols additional] else [])

def check_header_c (t : Table) : Except Unit (List Err) × Table :=
  (.ok (check_header_errs t.cols), t)

/-- check_column_values: distinct values of each of the five constrained
columns outside the fixed allowed set, one error per offending column in
dict-insertion order.  Raises when any accessed column is absent.  -/
def check_column_values_errs (rows : List Row) : List Err :=
  let invLoc := (dedupFirst (rows.map Row.location)).filter
      (fun v => decide (v ∉ LOCATION_CODES))
  let invQ := (dedupFirst (rows.filterMap Row.quantile)).filter
      (fun v => decide (v ∉ VALID_QUANTILES))
  let invT := (dedupFirst (rows.map Row.type)).filter
      (fun v => decide (v ∉ VALID_TYPES))
  let invA := (dedupFirst (rows.map Row.age_group)).filter
      (fun v => decide (v ∉ VALID_AGE_GROUPS))
  let invH := (dedupFirst (rows.map Row.horizon)).filter
      (fun v => decide (v ∉ VALID_HORIZONS))
  (if invLoc ≠ [] then [Err.invalidLocation invLoc] else []) ++
  (if invQ ≠ [] then [Err.invalidQuantile invQ] else []) ++
  (if invT ≠ [] then [Err.invalidType invT] else []) ++
  (if invA ≠ [] then [Err.invalidAgeGroup invA] else []) ++
  (if invH ≠ [] then [Err.invalidHorizon invH] else [])

def check_column_values_c (t : Table) : Except Unit (List Err) × Table :=
  if "location" ∈ t.cols ∧ "quantile" ∈ t.cols ∧ "type" ∈ t.cols ∧
     "age_group" ∈ t.cols ∧ "horizon" ∈ t.cols then
    (.ok (check_column_values_errs t.rows), t)
  else (.error (), t)

/-- Python str.isnumeric restricted to the ASCII strings produced by
astype(str) on this data: non-empty and all decimal digits.  -/
def isNumericStr (l : List Char) : Bool := !l.isEmpty && l.all Char.isDigit

/-- pandas str.replace removing every occurrence of the decimal point
(str.replace with a plain string and default n = -1 replaces all).  -/
def stripAllDots (s : String) : List Char := s.data.filter (fun c => c != '.')

/-- Number of missing cells of the value column.  -/
def missCount (rows : List Row) : Nat := rows.countP (fun r => r.value.isNone)

/-- The non-null value cells that are not numeric once every decimal
point is removed (df.value[~ ... .isnumeric()].dropna()).  -/
def nonNumericVals (rows : List Row) : List String :=
  (rows.filterMap Row.value).filter (fun s => !isNumericStr (stripAllDots s))

/-- check_value: the missing-count error and the non-numeric-values
error, independently.  Raises when the value column is absent.  -/
def check_value_errs (rows : List Row) : List Err :=
  (if 0 < missCount rows then [Err.missingValues (missCount rows)] else []) ++
  (if nonNumericVals rows ≠ [] then [Err.nonNumericValues (nonNumericVals rows)] else [])

def check_value_c (t : Table) : Except Unit (List Err) × Table :=
  if "value" ∈ t.cols then (.ok (check_value_errs t.rows), t) else (.error (), t)

/-- check_mean: count of rows with type mean and a non-null quantile.  -/
def meanQuantileCount (rows : List Row) : Nat :=
  rows.countP (fun r => r.type == "mean" && r.quantile.isSome)

def check_mean_c (t : Table) : Except Unit (List Err) × Table :=
  if "type" ∈ t.cols ∧ "quantile" ∈ t.cols then
    (.ok (if 0 < meanQuantileCount t.rows
          then [Err.meanWithQuantile (meanQuantileCount t.rows)] else []), t)
  else (.error (), t)

/-- The seven-field key of df.duplicated / sort_values.  -/
def key7 (r : Row) : String × String × Int × Int × Int × String × Option Rat :=
  (r.location, r.age_group, r.forecast_date, r.target_end_date, r.horizon,
   r.type, r.quantile)

/-- Rows flagged by df.duplicated(subset = key7, keep = False): every row
whose key occurs at least twice in the table.  -/
def duplicatedRows (rows : List Row) : List Row :=
  rows.filter (fun r => decide (2 ≤ rows.countP (fun s => key7 s == key7 r)))

/-- Comparison placing none (NaN) last, as pandas sort_values does.  -/
def optRatLe (a b : Option Rat) : Bool :=
  match a, b with
  | _, none => true
  | none, some _ => false
  | some x, some y => decide (x ≤ y)

def strLe (a b : String) : Bool := decide (a ≤ b)

/-- Lexicographic order on the seven-field key used by sort_values.  -/
def key7Le (a b : Row) : Bool :=
  if a.location ≠ b.location then strLe a.location b.location
  else if a.age_group ≠ b.age_group then strLe a.age_group b.age_group
  else if a.forecast_date ≠ b.forecast_date then decide (a.forecast_date ≤ b.forecast_date)
  else if a.target_end_date ≠ b.target_end_date then decide (a.target_end_date ≤ b.target_end_date)
  else if a.horizon ≠ b.horizon then decide (a.horizon ≤ b.horizon)
  else if a.type ≠ b.type then strLe a.type b.type
  else optRatLe a.quantile b.quantile

def insertLe {α : Type} (le : α → α → Bool) (a : α) : List α → List α
  | [] => [a]
  | b :: t => if le a b then a :: b :: t else b :: insertLe le a t

def sortLe {α : Type} (le : α → α → Bool) (l : List α) : List α :=
  l.foldr (insertLe le) []

def dup7Cols : List String :=
  ["location", "age_group", "forecast_date", "target_end_date", "horizon",
   "type", "quantile"]

/-- check_duplicates: one error holding the key-sorted flagged rows when
any key occurs more than once.  Raises when a key column is absent.  -/
def check_duplicates_c (t : Table) : Except Unit (List Err) × Table :=
  if ∀ c ∈ dup7Cols, c ∈ t.cols then
    (.ok (if duplicatedRows t.rows ≠ []
          then [Err.duplicatedTargets (sortLe key7Le (duplicatedRows t.rows))]
          else []), t)
  else (.error (), t)

/-- Expected target date of a row: forecast_date + horizon weeks - 4 days
(pd.Timedelta(weeks = horizon, days = -4)).  -/
def expectedTarget (r : Row) : Int := r.forecast_date + 7 * r.horizon - 4

/-- A row with a wrong target_end_date (the invalid_target_date flag).  -/
def badTarget (r : Row) : Bool := decide (r.target_end_date ≠ expectedTarget r)

/-- The date triples reported by check_target_dates: the flagged rows
projected to (forecast_date, target_end_date, horizon), first-occurrence
deduplicated (drop_duplicates).  -/
def tdTriples (rows : List Row) : List (Int × Int × Int) :=
  dedupFirst ((rows.filter badTarget).map
    (fun r => (r.forecast_date, r.target_end_date, r.horizon)))

def tdCols : List String := ["forecast_date", "target_end_date", "horizon"]

/-- check_target_dates.  Assigns the invalid_target_date helper column
in place before testing it.  The check raises, before the column is
assigned, when one of the three date columns is absent (AttributeError
inside the axis=1 lambda) and also on every empty table: the apply
probe call of the lambda on the all-NaN probe row raises inside
pd.Timedelta, apply then falls back to returning the frame itself, and
assigning that multi-column frame to the single column
invalid_target_date raises.  Only a non-empty table with the three
columns present reaches the assignment and the df.loc projection.  -/
def check_target_dates_c (t : Table) : Except Unit (List Err) × Table :=
  if (∀ c ∈ tdCols, c ∈ t.cols) ∧ t.rows ≠ [] then
    let t' : Table := { t with cols := addCol t.cols "invalid_target_date",
                               itd := some (t.rows.map badTarget) }
    (.ok (if tdTriples t.rows ≠ []
          then [Err.invalidTargetDates (tdTriples t.rows)] else []), t')
  else (.error (), t)

/-- The grouping key of check_quantiles.  -/
def groupKey (r : Row) : String × String × Int × Int :=
  (r.location, r.age_group, r.horizon, r.target_end_date)

/-- Number of distinct non-null quantile values among the non-mean rows
sharing the group key of r (the nunique transform).  -/
def groupNunique (rows : List Row) (r : Row) : Nat :=
  (dedupFirst ((rows.filter (fun s => s.type != "mean" && (groupKey s == groupKey r))).filterMap
      Row.quantile)).length

/-- The no_quantiles helper column: the group nunique for non-mean rows,
NaN for mean rows.  -/
def noqVals (rows : List Row) : List (Option Nat) :=
  rows.map (fun r => if r.type != "mean" then some (groupNunique rows r) else none)

/-- Rows of incomplete groups (no_quantiles notnull and not 7).  -/
def incompleteRows (rows : List Row) : List Row :=
  rows.filter (fun r => r.type != "mean" && (groupNunique rows r != 7))

/-- Every row has type mean.  -/
def onlyMean (rows : List Row) : Bool := rows.all (fun r => r.type == "mean")

/-- Every quantile-type row has quantile 0.5 (a NaN quantile compares
unequal to 0.5, as in pandas).  -/
def onlyMedian (rows : List Row) : Bool :=
  rows.all (fun r => r.type != "quantile" || (r.quantile == some (mkRat 1 2)))

/-- The per-group data of the quantile-completeness error: each
offending group key with the distinct quantile values present in it, in
first-occurrence order.  -/
def nqGroups (rows : List Row) : List ((String × String × Int × Int) × List Rat) :=
  (dedupFirst ((incompleteRows rows).map groupKey)).map
    (fun g => (g, dedupFirst (((incompleteRows rows).filter
        (fun r => groupKey r == g)).filterMap Row.quantile)))

def qCols : List String :=
  ["location", "age_group", "horizon", "target_end_date", "quantile"]

/-- check_quantiles error list for a table whose columns are present.  -/
def check_quantiles_errs (rows : List Row) : List Err :=
  if incompleteRows rows ≠ [] ∧ ¬(onlyMean rows = true ∨ onlyMedian rows = true) then
    [Err.notAllQuantiles (nqGroups rows)]
  else []

/-- check_quantiles.  Assigns the no_quantiles helper column in place
(df.loc on the type test raises first when the type column is absent;
the groupby raises before the assignment when a grouping column or the
quantile column is absent).  -/
def check_quantiles_c (t : Table) : Except Unit (List Err) × Table :=
  if "type" ∈ t.cols then
    if ∀ c ∈ qCols, c ∈ t.cols then
      (.ok (check_quantiles_errs t.rows),
       { t with cols := addCol t.cols "no_quantiles",
                noq := some (noqVals t.rows) })
    else (.error (), t)
  else (.error (), t)

/- ## The orchestrator check_forecast -/

/-- The seven wrapped checks, with the names used in the synthetic
fatal-error message, in the order of the loop of check_forecast.  -/
def checksList : List (String × (Table → Except Unit (List Err) × Table)) :=
  [("check_header", check_header_c),
   ("check_column_values", check_column_values_c),
   ("check_value", check_value_c),
   ("check_mean", check_mean_c),
   ("check_duplicates", check_duplicates_c),
   ("check_target_dates", check_target_dates_c),
   ("check_quantiles", check_quantiles_c)]

/-- The try/except wrapper around one check: its errors, or the single
synthetic fatal error naming the check.  -/
def wrapErrs (checkName : String) (r : Except Unit (List Err)) : List Err :=
  match r with
  | .ok es => es
  | .error _ => [Err.fatal checkName]

def runStep (acc : List Err × Table)
    (p : String × (Table → Except Unit (List Err) × Table)) :
    List Err × Table :=
  (acc.1 ++ wrapErrs p.1 (p.2 acc.2).1, (p.2 acc.2).2)

/-- The wrapped loop of check_forecast on the parsed table.  -/
def runChecks (t : Table) : List Err × Table := checksList.foldl runStep ([], t)

/- ## The path patterns

SUBMISSION_PATTERN of validation_functions.py is the regular expression
forecasts/submissions.*/ (.+)/(.+)/(.+)/ dddd-dd-dd -g1-g2-g3 . csv
used with re.match: anchored at the start only, a dot matching any
character except a newline, the trailing .csv matching any character
followed by the literal csv with arbitrary text allowed after it.  The
matcher below performs the backtracking search explicitly.  -/

/-- dropExpect l pat: consume the literal pat from the front of l.  -/
def dropExpect (l pat : List Char) : Option (List Char) :=
  if startsWithL l pat then some (l.drop pat.length) else none

/-- All decompositions l = s ++ slash :: t at a slash.  -/
def segSplits : List Char → List (List Char × List Char)
  | [] => []
  | ch :: t =>
    (if ch = '/' then [(([] : List Char), t)] else []) ++
      (segSplits t).map (fun p => (ch :: p.1, p.2))

/-- Text matched by a dot-star: any characters except newlines.  -/
def okDot (l : List Char) : Bool := l.all (fun c => c != '\n')

/-- The ten-character date chunk dddd-dd-dd of the pattern.  -/
def dateFmt (d : List Char) : Bool :=
  (d.length == 10) &&
  (d.getD 0 'x').isDigit && (d.getD 1 'x').isDigit &&
  (d.getD 2 'x').isDigit && (d.getD 3 'x').isDigit &&
  ((d.getD 4 'x') == '-') &&
  (d.getD 5 'x').isDigit && (d.getD 6 'x').isDigit &&
  ((d.getD 7 'x') == '-') &&
  (d.getD 8 'x').isDigit && (d.getD 9 'x').isDigit

/-- Consume a date chunk from the front of l.  -/
def dateChunk (l : List Char) : Option (List Char) :=
  if dateFmt (l.take 10) then some (l.drop 10) else none

/-- Tail of SUBMISSION_PATTERN after the three captured directory
segments a b c: the date, then -a-b-c, then one non-newline character,
then csv, then anything.  -/
def tailMatch (a b c l : List Char) : Bool :=
  match dateChunk l with
  | none => false
  | some l1 =>
    match dropExpect l1 ('-' :: (a ++ '-' :: (b ++ '-' :: c))) with
    | none => false
    | some l2 =>
      match l2 with
      | [] => false
      | x :: l3 => (x != '\n') && startsWithL l3 ['c', 's', 'v']

/-- Backtracking matcher for SUBMISSION_PATTERN (re.match semantics).  -/
def subMatchL (p : List Char) : Bool :=
  match dropExpect p ("forecasts/submissions".data) with
  | none => false
  | some u =>
    (segSplits u).any fun mv => okDot mv.1 &&
      ((segSplits mv.2).any fun aw => (!aw.1.isEmpty) && okDot aw.1 &&
        ((segSplits aw.2).any fun bw => (!bw.1.isEmpty) && okDot bw.1 &&
          ((segSplits bw.2).any fun cz => (!cz.1.isEmpty) && okDot cz.1 &&
            tailMatch aw.1 bw.1 cz.1 cz.2)))

/-- SUBMISSION_PATTERN.match(filepath) != None.  -/
def submissionMatch (p : String) : Bool := subMatchL p.data

/-- check_filepath: the naming-convention error unless the path matches
SUBMISSION_PATTERN.  -/
def check_filepath (p : String) : Option Err :=
  if submissionMatch p then none else some Err.badPath

/-- The declarative reading of SUBMISSION_PATTERN: some decomposition of
the path into the literal prefix, a dot-star part, three non-empty
captured segments reappearing after the date joined by hyphens, an
arbitrary character, the literal csv and an arbitrary tail.  -/
def SubmissionGrammar (p : List Char) : Prop :=
  ∃ m a b c d x rest,
    okDot m = true ∧
    a ≠ [] ∧ okDot a = true ∧ b ≠ [] ∧ okDot b = true ∧ c ≠ [] ∧ okDot c = true ∧
    dateFmt d = true ∧ x ≠ '\n' ∧
    p = "forecasts/submissions".data ++
        (m ++ '/' :: (a ++ '/' :: (b ++ '/' :: (c ++ '/' ::
          (d ++ ('-' :: (a ++ '-' :: (b ++ '-' :: c)) ++ x :: 'c' :: 's' :: 'v' :: rest))))))

/- pat of main.py: submissions/.*/(.+)/dddd-dd-dd-.*g1.csv with re.match;
only the last directory segment must reappear, before the final
any-character-plus-csv, with arbitrary text in between and after.  -/

/-- After the dot-star and the back-reference of pat: one non-newline
character then csv.  -/
def afterGroup (l : List Char) : Bool :=
  match l with
  | [] => false
  | x :: rest => (x != '\n') && startsWithL rest ['c', 's', 'v']

/-- Scan for the dot-star split of the filename part of pat: consume
non-newline characters until the captured segment g, followed by
afterGroup, matches here.  -/
def starScan (g : List Char) : List Char → Bool
  | [] => startsWithL [] g && afterGroup (([] : List Char).drop g.length)
  | ch :: t =>
    (startsWithL (ch :: t) g && afterGroup ((ch :: t).drop g.length)) ||
      ((ch != '\n') && starScan g t)

/-- Backtracking matcher for pat of main.py.  -/
def patMatchL (p : List Char) : Bool :=
  match dropExpect p ("submissions/".data) with
  | none => false
  | some u =>
    (segSplits u).any fun mv => okDot mv.1 &&
      ((segSplits mv.2).any fun gw => (!gw.1.isEmpty) && okDot gw.1 &&
        (match dateChunk gw.2 with
         | none => false
         | some w1 =>
           match w1 with
           | '-' :: w2 => starScan gw.1 w2
           | _ => false))

/-- pat.match(file.filename) is not None.  -/
def patMatch (p : String) : Bool := patMatchL p.data

/- ## main.py: classification of changed files -/

/-- forecasts: the changed files whose name matches pat.  -/
def forecastsOf (files : List String) : List String :=
  files.filter (fun f => patMatch f)

/-- other_files: the changed files not in forecasts.  -/
def otherFilesOf (files : List String) : List String :=
  files.filter (fun f => decide (f ∉ forecastsOf files))

/-- The entries added to all_errors for the non-submission files: each
receives the fixed single-element error list with no content
inspection.  -/
def otherErrorsOf (files : List String) : List (String × List Err) :=
  (otherFilesOf files).map (fun f => (f, [Err.notValidSubmission]))

/- ## check_forecast_date and check_forecast -/

/-- check_forecast_date, parameterised by the current date in the
Europe/Berlin zone as a day number.  Except.error () marks the two
uncaught exceptions: the AttributeError on a missing forecast_date
column and the IndexError raised while formatting the wrong-format
message for an empty column (iloc[0] re-evaluated inside the f-string
after the caught IndexError).  -/
def check_forecast_date (f : SubmissionFile) (today : Int) :
    Except Unit (Option Err) :=
  match parseDate (fnDate10 f.path) with
  | none => .ok (some (Err.badFilenameDate (fnDate10 f.path)))
  | some fileDate =>
    if "forecast_date" ∈ f.cols then
      if 1 < (dedupFirst f.rawForecastDate).length then
        .ok (some (Err.multipleDates (dedupFirst f.rawForecastDate)))
      else
        match f.rawForecastDate.head? with
        | none => .error ()
        | some s =>
          match parseDate s with
          | none => .ok (some (Err.badColumnDate s))
          | some colDate =>
            if fileDate ≠ colDate then
              .ok (some (Err.dateMismatch (String.mk (basenameL f.path.data)) colDate))
            else if ¬ containsS f.path "retrospective" = true ∧
                    1 < (fileDate - today).natAbs then
              .ok (some (Err.notFresh fileDate today))
            else .ok none
    else .error ()

/-- check_forecast: filepath check, date check (uncaught), the parse
with parse_dates on the two date columns (uncaught; raises when either
is absent), then the wrapped loop over the seven checks.  -/
def check_forecast (f : SubmissionFile) (today : Int) :
    Except Unit (List Err) :=
  let errs0 := (check_filepath f.path).toList
  match check_forecast_date f today with
  | .error e => .error e
  | .ok od =>
    let errs1 := errs0 ++ od.toList
    if "forecast_date" ∈ f.cols ∧ "target_end_date" ∈ f.cols then
      .ok (errs1 ++ (runChecks { cols := f.cols, rows := f.rows }).1)
    else .error ()


/- ## The reading of the value-numericity rule used by the spec

Modelled from the spec: the spec describes the numericity test as being
applied after stripping a single decimal point character; the code
(str.replace with default n = -1) strips every decimal point.  The
definitions below state the single-strip reading for comparison.  -/

/-- Removal of the first decimal point only.  -/
def removeOneDot : List Char → List Char
  | [] => []
  | c :: t => if c = '.' then t else c :: removeOneDot t

/-- Numeric after stripping a single decimal point character, the rule
as worded by the spec.  -/
def specNumericOneDot (s : String) : Bool := isNumericStr (removeOneDot s.data)

/- ## Concrete instances used in witnesses and counterexamples -/

def wRowGood : Row :=
  { location := "DE", age_group := "00+", forecast_date := 0,
    target_end_date := -4, horizon := 0, type := "quantile",
    quantile := some (mkRat 25 1000), value := some "1" }

/-- A row whose target_end_date is off by exactly one day.  -/
def wRowOff : Row := { wRowGood with target_end_date := -3, quantile := some (mkRat 1 10) }

def wTableTarget : Table := { cols := VALID_COLUMNS, rows := [wRowGood, wRowOff] }

/-- An empty table with all eight columns present.  -/
def tEmptyTable : Table := { cols := VALID_COLUMNS, rows := [] }

def wQuantileRow (q : Rat) (v : String) : Row :=
  { location := "DE", age_group := "00+", forecast_date := 0,
    target_end_date := -4, horizon := 0, type := "quantile",
    quantile := some q, value := some v }

/-- One group with the seven canonical quantiles plus a duplicated 0.5
row (different value, same key).  -/
def wTableQ : Table :=
  { cols := VALID_COLUMNS,
    rows := (VALID_QUANTILES.map (fun q => wQuantileRow q "1")) ++ [wQuantileRow (mkRat 1 2) "2"] }

/-- A single row whose value has two decimal points.  -/
def cexValueTable : Table :=
  { cols := VALID_COLUMNS, rows := [{ wRowGood with value := some "1.2.3" }] }

def wValueTable : Table :=
  { cols := VALID_COLUMNS,
    rows := [{ wRowGood with value := some "1.2.3" },
             { wRowGood with value := none },
             { wRowGood with value := some "1x" }] }

def wFileFresh : SubmissionFile :=
  { path := "forecasts/submissions/x/a/b/c/2020-01-01-a-b-c.csv",
    cols := VALID_COLUMNS, rawForecastDate := ["2020-01-01"], rows := [] }

def wFileRetro : SubmissionFile :=
  { wFileFresh with path := "forecasts/submissions/retrospective/b/c/2020-01-01-a-b-c.csv" }

/-- Parseable filename date, forecast_date column present but empty.  -/
def wFileEmptyRaw : SubmissionFile :=
  { path := "2020-01-01-a-b-c.csv", cols := VALID_COLUMNS,
    rawForecastDate := [], rows := [] }

/-- Unparseable filename date, forecast_date column present but empty.  -/
def cexFileC9 : SubmissionFile :=
  { path := "zzz.csv", cols := VALID_COLUMNS, rawForecastDate := [], rows := [] }

/-- Same seven-field key as wRowGood, different value.  -/
def wDupRow : Row := { wRowGood with value := some "2" }

def wTableDupA : Table := { cols := VALID_COLUMNS, rows := [wRowGood, wDupRow, wRowOff] }

def wTableDupB : Table := { cols := VALID_COLUMNS, rows := [wRowOff, wDupRow, wRowGood] }

/- ## List utility lemmas -/

theorem dedupFirst_go_mem {α : Type} [DecidableEq α] (l : List α) (acc : List α) (x : α) :
    x ∈ l.foldl (fun acc a => if a ∈ acc then acc else acc ++ [a]) acc ↔
      x ∈ acc ∨ x ∈ l := by
  induction l generalizing acc with
  | nil => simp
  | cons a t ih =>
    simp only [List.foldl_cons]
    rw [ih]
    by_cases h : a ∈ acc
    · simp only [if_pos h, List.mem_cons]
      constructor
      · rintro (hx | hx)
        · exact Or.inl hx
        · exact Or.inr (Or.inr hx)
      · rintro (hx | rfl | hx)
        · exact Or.inl hx
        · exact Or.inl h
        · exact Or.inr hx
    · simp only [if_neg h, List.mem_append, List.mem_singleton, List.mem_cons]
      tauto

theorem dedupFirst_mem {α : Type} [DecidableEq α] (l : List α) (x : α) :
    x ∈ dedupFirst l ↔ x ∈ l := by
  unfold dedupFirst
  rw [dedupFirst_go_mem]
  simp

/- ## Correctness of the pattern matchers -/

theorem startsWithL_iff (l pat : List Char) :
    startsWithL l pat = true ↔ ∃ z, l = pat ++ z := by
  induction pat generalizing l with
  | nil =>
    unfold startsWithL
    simp
  | cons b bs ih =>
    cases l with
    | nil =>
      unfold startsWithL
      simp
    | cons a as =>
      unfold startsWithL
      rw [Bool.and_eq_true, beq_iff_eq, ih]
      constructor
      · rintro ⟨rfl, z, rfl⟩
        exact ⟨z, rfl⟩
      · rintro ⟨z, hz⟩
        rw [List.cons_append] at hz
        injection hz with h1 h2
        exact ⟨h1, z, h2⟩

theorem dropExpect_eq_some {l pat z : List Char} :
    dropExpect l pat = some z ↔ l = pat ++ z := by
  constructor
  · intro h
    unfold dropExpect at h
    by_cases hs : startsWithL l pat = true
    · rw [if_pos hs] at h
      obtain ⟨w, rfl⟩ := (startsWithL_iff l pat).mp hs
      rw [List.drop_left] at h
      injection h with h
      rw [h]
    · rw [if_neg hs] at h
      exact absurd h (by simp)
  · rintro rfl
    have hs : startsWithL (pat ++ z) pat = true :=
      (startsWithL_iff _ _).mpr ⟨z, rfl⟩
    unfold dropExpect
    rw [if_pos hs, List.drop_left]

theorem segSplits_mem (l s t : List Char) :
    (s, t) ∈ segSplits l ↔ l = s ++ '/' :: t := by
  induction l generalizing s t with
  | nil =>
    unfold segSplits
    simp
  | cons ch u ih =>
    unfold segSplits
    simp only [List.mem_append, List.mem_map]
    constructor
    · rintro (h | ⟨p, hp, heq⟩)
      · by_cases hc : ch = '/'
        · rw [if_pos hc] at h
          simp only [List.mem_singleton, Prod.mk.injEq] at h
          obtain ⟨rfl, rfl⟩ := h
          rw [hc]
          rfl
        · rw [if_neg hc] at h
          simp at h
      · obtain ⟨rfl, rfl⟩ : ch :: p.1 = s ∧ p.2 = t := by
          injection heq with h1 h2
          exact ⟨h1, h2⟩
        have := (ih p.1 p.2).mp hp
        rw [this]
        rfl
    · intro h
      cases s with
      | nil =>
        simp only [List.nil_append] at h
        injection h with h1 h2
        left
        rw [if_pos h1]
        simp [h2]
      | cons c' s' =>
        rw [List.cons_append] at h
        injection h with h1 h2
        right
        exact ⟨(s', t), (ih s' t).mpr h2, by rw [h1]⟩

theorem dateFmt_length {d : List Char} (h : dateFmt d = true) : d.length = 10 := by
  unfold dateFmt at h
  simp only [Bool.and_eq_true, beq_iff_eq] at h
  exact h.1.1.1.1.1.1.1.1.1.1

theorem dateChunk_eq_some {l z : List Char} :
    dateChunk l = some z ↔ ∃ d, dateFmt d = true ∧ l = d ++ z := by
  constructor
  · intro h
    unfold dateChunk at h
    by_cases hf : dateFmt (l.take 10) = true
    · rw [if_pos hf] at h
      injection h with h
      exact ⟨l.take 10, hf, by rw [← h]; exact (List.take_append_drop 10 l).symm⟩
    · rw [if_neg hf] at h
      exact absurd h (by simp)
  · rintro ⟨d, hd, rfl⟩
    have h10 : d.length = 10 := dateFmt_length hd
    have htake : (d ++ z).take 10 = d := List.take_left' h10
    have hdrop : (d ++ z).drop 10 = z := by
      rw [← h10]
      exact List.drop_left d z
    unfold dateChunk
    rw [htake, if_pos hd, hdrop]

theorem tailMatch_iff (a b c l : List Char) :
    tailMatch a b c l = true ↔
      ∃ d x rest, dateFmt d = true ∧ x ≠ '\n' ∧
        l = d ++ ('-' :: (a ++ '-' :: (b ++ '-' :: c)) ++ x :: 'c' :: 's' :: 'v' :: rest) := by
  constructor
  · intro h
    unfold tailMatch at h
    cases hdc : dateChunk l with
    | none => rw [hdc] at h; exact absurd h (by simp)
    | some l1 =>
      rw [hdc] at h
      simp only [] at h
      cases hde : dropExpect l1 ('-' :: (a ++ '-' :: (b ++ '-' :: c))) with
      | none => rw [hde] at h; exact absurd h (by simp)
      | some l2 =>
        rw [hde] at h
        simp only [] at h
        cases l2 with
        | nil => exact absurd h (by simp)
        | cons x l3 =>
          rw [Bool.and_eq_true, bne_iff_ne] at h
          obtain ⟨hx, hsw⟩ := h
          obtain ⟨rest, hr⟩ := (startsWithL_iff l3 ['c', 's', 'v']).mp hsw
          obtain ⟨d, hd, hl⟩ := dateChunk_eq_some.mp hdc
          have h1 : l1 = ('-' :: (a ++ '-' :: (b ++ '-' :: c))) ++ (x :: l3) :=
            dropExpect_eq_some.mp hde
          refine ⟨d, x, rest, hd, hx, ?_⟩
          rw [hl, h1, hr]
          rfl
  · rintro ⟨d, x, rest, hd, hx, rfl⟩
    unfold tailMatch
    have hdc : dateChunk (d ++ ('-' :: (a ++ '-' :: (b ++ '-' :: c)) ++ x :: 'c' :: 's' :: 'v' :: rest)) =
        some ('-' :: (a ++ '-' :: (b ++ '-' :: c)) ++ x :: 'c' :: 's' :: 'v' :: rest) :=
      dateChunk_eq_some.mpr ⟨d, hd, rfl⟩
    rw [hdc]
    simp only []
    have hde : dropExpect ('-' :: (a ++ '-' :: (b ++ '-' :: c)) ++ x :: 'c' :: 's' :: 'v' :: rest)
        ('-' :: (a ++ '-' :: (b ++ '-' :: c))) = some (x :: 'c' :: 's' :: 'v' :: rest) :=
      dropExpect_eq_some.mpr rfl
    rw [hde]
    simp only []
    rw [Bool.and_eq_true, bne_iff_ne]
    exact ⟨hx, (startsWithL_iff _ _).mpr ⟨rest, rfl⟩⟩

theorem neg_isEmpty_iff {α : Type} (l : List α) : (!l.isEmpty) = true ↔ l ≠ [] := by
  cases l <;> simp

theorem subMatchL_iff (p : List Char) : subMatchL p = true ↔ SubmissionGrammar p := by
  unfold subMatchL SubmissionGrammar
  cases hde : dropExpect p ("forecasts/submissions".data) with
  | none =>
    simp only []
    constructor
    · intro h
      exact absurd h (by simp)
    · rintro ⟨m, a, b, c, d, x, rest, hm, ha1, ha2, hb1, hb2, hc1, hc2, hdf, hx, hp⟩
      have h2 := dropExpect_eq_some.mpr hp
      rw [hde] at h2
      exact absurd h2 (by simp)
  | some u =>
    have hu : p = "forecasts/submissions".data ++ u := dropExpect_eq_some.mp hde
    subst hu
    simp only []
    simp only [List.append_right_inj]
    constructor
    · intro h
      rw [List.any_eq_true] at h
      obtain ⟨⟨m, v⟩, hmem, hb⟩ := h
      rw [Bool.and_eq_true] at hb
      obtain ⟨hm, hb⟩ := hb
      rw [List.any_eq_true] at hb
      obtain ⟨⟨a, w⟩, hamem, hb⟩ := hb
      rw [Bool.and_eq_true, Bool.and_eq_true] at hb
      obtain ⟨⟨hane, haok⟩, hb⟩ := hb
      rw [List.any_eq_true] at hb
      obtain ⟨⟨b, y⟩, hbmem, hb2⟩ := hb
      rw [Bool.and_eq_true, Bool.and_eq_true] at hb2
      obtain ⟨⟨hbne, hbok⟩, hb2⟩ := hb2
      rw [List.any_eq_true] at hb2
      obtain ⟨⟨c, z⟩, hcmem, hb3⟩ := hb2
      rw [Bool.and_eq_true, Bool.and_eq_true] at hb3
      obtain ⟨⟨hcne, hcok⟩, htail⟩ := hb3
      obtain ⟨d, x, rest, hdf, hx, hz⟩ := (tailMatch_iff a b c z).mp htail
      have hmu := (segSplits_mem u m v).mp hmem
      have hva := (segSplits_mem v a w).mp hamem
      have hwb := (segSplits_mem w b y).mp hbmem
      have hyc := (segSplits_mem y c z).mp hcmem
      refine ⟨m, a, b, c, d, x, rest, hm,
        (neg_isEmpty_iff a).mp hane, haok,
        (neg_isEmpty_iff b).mp hbne, hbok,
        (neg_isEmpty_iff c).mp hcne, hcok, hdf, hx, ?_⟩
      rw [hmu, hva, hwb, hyc, hz]
    · rintro ⟨m, a, b, c, d, x, rest, hm, ha1, ha2, hb1, hb2, hc1, hc2, hdf, hx, rfl⟩
      rw [List.any_eq_true]
      refine ⟨(m, a ++ '/' :: (b ++ '/' :: (c ++ '/' ::
        (d ++ ('-' :: (a ++ '-' :: (b ++ '-' :: c)) ++ x :: 'c' :: 's' :: 'v' :: rest))))),
        (segSplits_mem _ _ _).mpr rfl, ?_⟩
      rw [Bool.and_eq_true]
      refine ⟨hm, ?_⟩
      rw [List.any_eq_true]
      refine ⟨(a, b ++ '/' :: (c ++ '/' ::
        (d ++ ('-' :: (a ++ '-' :: (b ++ '-' :: c)) ++ x :: 'c' :: 's' :: 'v' :: rest)))),
        (segSplits_mem _ _ _).mpr rfl, ?_⟩
      rw [Bool.and_eq_true, Bool.and_eq_true]
      refine ⟨⟨(neg_isEmpty_iff a).mpr ha1, ha2⟩, ?_⟩
      rw [List.any_eq_true]
      refine ⟨(b, c ++ '/' ::
        (d ++ ('-' :: (a ++ '-' :: (b ++ '-' :: c)) ++ x :: 'c' :: 's' :: 'v' :: rest))),
        (segSplits_mem _ _ _).mpr rfl, ?_⟩
      rw [Bool.and_eq_true, Bool.and_eq_true]
      refine ⟨⟨(neg_isEmpty_iff b).mpr hb1, hb2⟩, ?_⟩
      rw [List.any_eq_true]
      refine ⟨(c, d ++ ('-' :: (a ++ '-' :: (b ++ '-' :: c)) ++ x :: 'c' :: 's' :: 'v' :: rest)),
        (segSplits_mem _ _ _).mpr rfl, ?_⟩
      rw [Bool.and_eq_true, Bool.and_eq_true]
      exact ⟨⟨(neg_isEmpty_iff c).mpr hc1, hc2⟩,
        (tailMatch_iff a b c _).mpr ⟨d, x, rest, hdf, hx, rfl⟩⟩

/- ## Structural lemmas about the check loop -/

theorem check_header_c_snd (t : Table) : (check_header_c t).2 = t := rfl

theorem check_column_values_c_snd (t : Table) : (check_column_values_c t).2 = t := by
  unfold check_column_values_c
  split <;> rfl

theorem check_value_c_snd (t : Table) : (check_value_c t).2 = t := by
  unfold check_value_c
  split <;> rfl

theorem check_mean_c_snd (t : Table) : (check_mean_c t).2 = t := by
  unfold check_mean_c
  split <;> rfl

theorem check_duplicates_c_snd (t : Table) : (check_duplicates_c t).2 = t := by
  unfold check_duplicates_c
  split <;> rfl

theorem mem_addCol_iff {cols : List String} {c n : String} (hne : c ≠ n) :
    c ∈ addCol cols n ↔ c ∈ cols := by
  unfold addCol
  split
  · exact Iff.rfl
  · simp [hne]

theorem check_target_dates_c_rows (t : Table) :
    ((check_target_dates_c t).2).rows = t.rows := by
  unfold check_target_dates_c
  split <;> rfl

theorem check_target_dates_c_cols_mem (t : Table) (c : String)
    (hne : c ≠ "invalid_target_date") :
    c ∈ ((check_target_dates_c t).2).cols ↔ c ∈ t.cols := by
  unfold check_target_dates_c
  split
  · exact mem_addCol_iff hne
  · exact Iff.rfl

theorem check_quantiles_c_fst_congr (t u : Table) (hrows : t.rows = u.rows)
    (hcols : ∀ c, c = "type" ∨ c ∈ qCols → (c ∈ t.cols ↔ c ∈ u.cols)) :
    (check_quantiles_c t).1 = (check_quantiles_c u).1 := by
  unfold check_quantiles_c
  by_cases h1 : "type" ∈ t.cols
  · have h1' : "type" ∈ u.cols := (hcols "type" (Or.inl rfl)).mp h1
    rw [if_pos h1, if_pos h1']
    by_cases h2 : ∀ c ∈ qCols, c ∈ t.cols
    · have h2' : ∀ c ∈ qCols, c ∈ u.cols :=
        fun c hc => (hcols c (Or.inr hc)).mp (h2 c hc)
      rw [if_pos h2, if_pos h2']
      simp only []
      rw [hrows]
    · have h2' : ¬ ∀ c ∈ qCols, c ∈ u.cols :=
        fun hh => h2 (fun c hc => (hcols c (Or.inr hc)).mpr (hh c hc))
      rw [if_neg h2, if_neg h2']
  · have h1' : "type" ∉ u.cols := fun hh => h1 ((hcols "type" (Or.inl rfl)).mpr hh)
    rw [if_neg h1, if_neg h1']

theorem quantiles_after_target_dates (t : Table) :
    (check_quantiles_c ((check_target_dates_c t).2)).1 = (check_quantiles_c t).1 := by
  apply check_quantiles_c_fst_congr
  · exact check_target_dates_c_rows t
  · intro c hc
    refine check_target_dates_c_cols_mem t c ?_
    rcases hc with rfl | hc
    · decide
    · simp only [qCols, List.mem_cons, List.not_mem_nil, or_false] at hc
      rcases hc with rfl | rfl | rfl | rfl | rfl <;> decide

/-- Helper: the error list of the wrapped loop is the flat concatenation,
in check order, of the wrapped outcome of every check applied to the
original table: the in-place column additions of the last two checks
never reach a check that could read them.  -/
theorem runChecks_fst_eq (t : Table) :
    (runChecks t).1 =
      (checksList.map (fun p => wrapErrs p.1 (p.2 t).1)).flatten := by
  unfold runChecks checksList
  simp only [List.foldl_cons, List.foldl_nil, runStep, List.map_cons, List.map_nil,
    List.flatten_cons, List.flatten_nil,
    check_header_c_snd, check_column_values_c_snd, check_value_c_snd,
    check_mean_c_snd, check_duplicates_c_snd]
  rw [quantiles_after_target_dates]
  simp [List.append_assoc]

theorem wrapErrs_eq_nil_iff (n : String) (r : Except Unit (List Err)) :
    wrapErrs n r = [] ↔ r = .ok [] := by
  cases r with
  | ok es => simp [wrapErrs]
  | error e => simp [wrapErrs]

theorem dedupFirst_eq_nil_iff {α : Type} [DecidableEq α] (l : List α) :
    dedupFirst l = [] ↔ l = [] := by
  constructor
  · intro h
    rw [List.eq_nil_iff_forall_not_mem]
    intro x hx
    have hm := (dedupFirst_mem l x).mpr hx
    rw [h] at hm
    exact absurd hm (List.not_mem_nil x)
  · rintro rfl
    rfl

/- ## Claim theorems -/

/-- C6: check_filepath returns no error exactly for the paths generated
by the submission grammar (the declarative reading of
SUBMISSION_PATTERN: a forecasts/submissions prefix, three non-empty
directory segments that reappear after the ten-character date joined by
hyphens, then an arbitrary character, csv, and an arbitrary tail), and
returns the single naming-convention error exactly for all other
paths.  -/
theorem check_filepath_iff_grammar (p : String) :
    (check_filepath p = none ↔ SubmissionGrammar p.data) ∧
    (check_filepath p = some Err.badPath ↔ ¬ SubmissionGrammar p.data) := by
  have h := subMatchL_iff p.data
  unfold check_filepath submissionMatch
  by_cases hb : subMatchL p.data = true
  · rw [if_pos hb]
    simp [h.mp hb]
  · rw [if_neg hb]
    have hng : ¬ SubmissionGrammar p.data := fun hg => hb (h.mpr hg)
    simp [hng]

/-- C7 counterexample: the path submissions/m/c/2023-01-01-c.csv is
classified as a forecast submission by main.py (it matches pat), yet it
does not match the Path Matcher's grammar: check_filepath rejects it.
Hence classification does not coincide with the Path Matcher's
grammar.  -/
theorem classification_differs_from_path_matcher :
    "submissions/m/c/2023-01-01-c.csv" ∈
      forecastsOf ["submissions/m/c/2023-01-01-c.csv"] ∧
    check_filepath "submissions/m/c/2023-01-01-c.csv" = some Err.badPath := by
  constructor
  · decide
  · decide

/-- C7 (amended): a changed file is treated as a forecast submission
exactly when its name matches main.py's own pattern pat (which requires
only the last directory segment to reappear at the end of the filename,
and is not the Path Matcher's SUBMISSION_PATTERN); every other file is
assigned the fixed single-element error list without any inspection of
its content.  -/
theorem classification_spec (files : List String) :
    (∀ f, f ∈ forecastsOf files ↔ (f ∈ files ∧ patMatch f = true)) ∧
    (∀ f, f ∈ otherFilesOf files ↔ (f ∈ files ∧ f ∉ forecastsOf files)) ∧
    (∀ f, (f, [Err.notValidSubmission]) ∈ otherErrorsOf files ↔
       f ∈ otherFilesOf files) := by
  refine ⟨?_, ?_, ?_⟩
  · intro f
    simp [forecastsOf, List.mem_filter]
  · intro f
    simp [otherFilesOf, List.mem_filter]
  · intro f
    simp [otherErrorsOf, List.mem_map]

/-- C4: the loop of check_forecast runs the seven checks in their fixed
order; each is wrapped so that an internal exception becomes exactly one
synthetic fatal error naming the check while the remaining checks still
run; the error list is the concatenation, in check order, of every
check's wrapped errors; and it is empty exactly when every check
returns without errors and without an internal failure.  -/
theorem check_forecast_loop_spec (t : Table) :
    checksList.map Prod.fst =
      ["check_header", "check_column_values", "check_value", "check_mean",
       "check_duplicates", "check_target_dates", "check_quantiles"] ∧
    (runChecks t).1 = (checksList.map (fun p => wrapErrs p.1 (p.2 t).1)).flatten ∧
    ((runChecks t).1 = [] ↔ ∀ p ∈ checksList, (p.2 t).1 = .ok []) := by
  refine ⟨rfl, runChecks_fst_eq t, ?_⟩
  rw [runChecks_fst_eq t, List.flatten_eq_nil_iff]
  constructor
  · intro h p hp
    exact (wrapErrs_eq_nil_iff p.1 (p.2 t).1).mp
      (h (wrapErrs p.1 (p.2 t).1) (List.mem_map_of_mem _ hp))
  · intro h l hl
    rw [List.mem_map] at hl
    obtain ⟨p, hp, rfl⟩ := hl
    exact (wrapErrs_eq_nil_iff p.1 (p.2 t).1).mpr (h p hp)

theorem mem_addCol_self (cols : List String) (c : String) : c ∈ addCol cols c := by
  unfold addCol
  split
  · assumption
  · simp

/-- C10: the first five checks return the table unchanged; on a
non-empty table with its columns present, check_target_dates adds the
invalid_target_date helper column (per-row flags), and with its columns
present check_quantiles adds the no_quantiles helper column (per-row
group counts), both keeping the rows unchanged; the verdict of
check_quantiles is unchanged by whatever check_target_dates did to the
table just before it; and consequently the loop's error list equals the
flat concatenation of every check's verdict on the original table - the
added columns never change the result of any other check.  -/
theorem checks_mutation_spec (t : Table)
    (htd : ∀ c ∈ tdCols, c ∈ t.cols) (hne : t.rows ≠ [])
    (hq1 : "type" ∈ t.cols) (hq2 : ∀ c ∈ qCols, c ∈ t.cols) :
    ((check_header_c t).2 = t ∧ (check_column_values_c t).2 = t ∧
     (check_value_c t).2 = t ∧ (check_mean_c t).2 = t ∧
     (check_duplicates_c t).2 = t) ∧
    ("invalid_target_date" ∈ ((check_target_dates_c t).2).cols ∧
     ((check_target_dates_c t).2).itd = some (t.rows.map badTarget) ∧
     ((check_target_dates_c t).2).rows = t.rows) ∧
    ("no_quantiles" ∈ ((check_quantiles_c t).2).cols ∧
     ((check_quantiles_c t).2).noq = some (noqVals t.rows) ∧
     ((check_quantiles_c t).2).rows = t.rows) ∧
    (check_quantiles_c ((check_target_dates_c t).2)).1 = (check_quantiles_c t).1 ∧
    (runChecks t).1 = (checksList.map (fun p => wrapErrs p.1 (p.2 t).1)).flatten := by
  refine ⟨⟨check_header_c_snd t, check_column_values_c_snd t, check_value_c_snd t,
    check_mean_c_snd t, check_duplicates_c_snd t⟩, ?_, ?_,
    quantiles_after_target_dates t, runChecks_fst_eq t⟩
  · unfold check_target_dates_c
    rw [if_pos ⟨htd, hne⟩]
    exact ⟨mem_addCol_self t.cols _, rfl, rfl⟩
  · unfold check_quantiles_c
    rw [if_pos hq1, if_pos hq2]
    exact ⟨mem_addCol_self t.cols _, rfl, rfl⟩

/-- C10 witness at a concrete table.  -/
theorem checks_mutation_spec_witness :
    "invalid_target_date" ∈ ((check_target_dates_c wTableTarget).2).cols ∧
    ((check_quantiles_c wTableTarget).2).noq = some (noqVals wTableTarget.rows) ∧
    (check_quantiles_c ((check_target_dates_c wTableTarget).2)).1 =
      (check_quantiles_c wTableTarget).1 := by
  have h := checks_mutation_spec wTableTarget (by decide) (by decide) (by decide)
    (by decide)
  exact ⟨h.2.1.1, h.2.2.1.2.1, h.2.2.2.1⟩

theorem badTarget_iff (r : Row) :
    badTarget r = true ↔ r.target_end_date ≠ expectedTarget r := by
  unfold badTarget
  exact decide_eq_true_iff

theorem tdTriples_mem (rows : List Row) (x : Int × Int × Int) :
    x ∈ tdTriples rows ↔ ∃ r ∈ rows, r.target_end_date ≠ expectedTarget r ∧
      x = (r.forecast_date, r.target_end_date, r.horizon) := by
  unfold tdTriples
  rw [dedupFirst_mem, List.mem_map]
  constructor
  · rintro ⟨r, hr, rfl⟩
    rw [List.mem_filter] at hr
    exact ⟨r, hr.1, (badTarget_iff r).mp hr.2, rfl⟩
  · rintro ⟨r, hr, hb, rfl⟩
    exact ⟨r, List.mem_filter.mpr ⟨hr, (badTarget_iff r).mpr hb⟩, rfl⟩

theorem tdTriples_eq_nil_iff (rows : List Row) :
    tdTriples rows = [] ↔ ∀ r ∈ rows, r.target_end_date = expectedTarget r := by
  unfold tdTriples
  rw [dedupFirst_eq_nil_iff, List.map_eq_nil_iff, List.filter_eq_nil_iff]
  constructor
  · intro h r hr
    by_contra hne
    exact h r hr ((badTarget_iff r).mpr hne)
  · intro h r hr hb
    exact (badTarget_iff r).mp hb (h r hr)

/-- C1 counterexample: on an empty table with the three date columns
present, every row vacuously satisfies the target-date invariant, yet
check_target_dates raises (the axis=1 apply probe and the fallback
frame assignment fail on a 0-row frame), which the orchestrator turns
into a fatal error - not the no-error outcome the claim asserts for a
table all of whose rows satisfy the invariant.  -/
theorem check_target_dates_empty_cex :
    (∀ r ∈ tEmptyTable.rows,
      r.target_end_date = r.forecast_date + 7 * r.horizon - 4) ∧
    (∀ c ∈ tdCols, c ∈ tEmptyTable.cols) ∧
    (check_target_dates_c tEmptyTable).1 = .error () ∧
    wrapErrs "check_target_dates" (check_target_dates_c tEmptyTable).1 =
      [Err.fatal "check_target_dates"] := by
  refine ⟨by decide, by decide, by decide, by decide⟩

/-- C1 (amended): on a non-empty table with its three columns present,
check_target_dates flags exactly the rows whose target_end_date differs
from forecast_date + 7 * horizon - 4 days; it returns no error exactly
when every row satisfies the invariant, and otherwise one single error
holding the flagged (forecast_date, target_end_date, horizon) triples
deduplicated in first-occurrence order; a row off by exactly one day is
flagged.  (An empty table instead makes the check raise, which the
orchestrator downgrades to a fatal error.)  -/
theorem check_target_dates_spec (t : Table) (htd : ∀ c ∈ tdCols, c ∈ t.cols)
    (hne : t.rows ≠ []) :
    ((check_target_dates_c t).1 = .ok [] ∨
     (check_target_dates_c t).1 = .ok [Err.invalidTargetDates (tdTriples t.rows)]) ∧
    ((check_target_dates_c t).1 = .ok [] ↔
      ∀ r ∈ t.rows, r.target_end_date = r.forecast_date + 7 * r.horizon - 4) ∧
    (∀ x, x ∈ tdTriples t.rows ↔ ∃ r ∈ t.rows,
       r.target_end_date ≠ r.forecast_date + 7 * r.horizon - 4 ∧
       x = (r.forecast_date, r.target_end_date, r.horizon)) ∧
    (∀ r ∈ t.rows, r.target_end_date = r.forecast_date + 7 * r.horizon - 4 + 1 →
       (check_target_dates_c t).1 = .ok [Err.invalidTargetDates (tdTriples t.rows)] ∧
       (r.forecast_date, r.target_end_date, r.horizon) ∈ tdTriples t.rows) := by
  have hres : (check_target_dates_c t).1 =
      .ok (if tdTriples t.rows ≠ [] then [Err.invalidTargetDates (tdTriples t.rows)]
           else []) := by
    unfold check_target_dates_c
    rw [if_pos ⟨htd, hne⟩]
  have hok : (check_target_dates_c t).1 = .ok [] ↔ tdTriples t.rows = [] := by
    rw [hres]
    by_cases h : tdTriples t.rows = []
    · simp [h]
    · simp [h]
  refine ⟨?_, ?_, ?_, ?_⟩
  · rw [hres]
    by_cases h : tdTriples t.rows = []
    · left
      simp [h]
    · right
      rw [if_pos h]
  · simpa [expectedTarget] using hok.trans (tdTriples_eq_nil_iff t.rows)
  · intro x
    simpa [expectedTarget] using tdTriples_mem t.rows x
  · intro r hr h1
    have hne : r.target_end_date ≠ expectedTarget r := by
      unfold expectedTarget
      omega
    have hmem : (r.forecast_date, r.target_end_date, r.horizon) ∈ tdTriples t.rows :=
      (tdTriples_mem t.rows _).mpr ⟨r, hr, hne, rfl⟩
    have hnn : tdTriples t.rows ≠ [] := List.ne_nil_of_mem hmem
    rw [hres, if_pos hnn]
    exact ⟨rfl, hmem⟩

/-- C1 witness: a concrete table with a row off by one day.  -/
theorem check_target_dates_spec_witness :
    (check_target_dates_c wTableTarget).1 =
      .ok [Err.invalidTargetDates (tdTriples wTableTarget.rows)] ∧
    ((0 : Int), (-3 : Int), (0 : Int)) ∈ tdTriples wTableTarget.rows :=
  (check_target_dates_spec wTableTarget (by decide) (by decide)).2.2.2 wRowOff
    (by decide) (by decide)

theorem incompleteRows_ne_nil_iff (rows : List Row) :
    incompleteRows rows ≠ [] ↔
      ∃ r ∈ rows, r.type ≠ "mean" ∧ groupNunique rows r ≠ 7 := by
  constructor
  · intro h
    obtain ⟨r, hr⟩ := List.exists_mem_of_ne_nil _ h
    rw [incompleteRows, List.mem_filter, Bool.and_eq_true, bne_iff_ne, bne_iff_ne] at hr
    exact ⟨r, hr.1, hr.2⟩
  · rintro ⟨r, hr, h1, h2⟩
    have hm : r ∈ incompleteRows rows := by
      rw [incompleteRows, List.mem_filter, Bool.and_eq_true, bne_iff_ne, bne_iff_ne]
      exact ⟨hr, h1, h2⟩
    exact List.ne_nil_of_mem hm

theorem onlyMean_iff (rows : List Row) :
    onlyMean rows = true ↔ ∀ r ∈ rows, r.type = "mean" := by
  unfold onlyMean
  rw [List.all_eq_true]
  simp

theorem onlyMedian_iff (rows : List Row) :
    onlyMedian rows = true ↔
      ∀ r ∈ rows, r.type = "quantile" → r.quantile = some (mkRat 1 2) := by
  unfold onlyMedian
  rw [List.all_eq_true]
  constructor
  · intro h r hr ht
    rcases Bool.or_eq_true_iff.mp (h r hr) with hb | hb
    · rw [bne_iff_ne] at hb
      exact absurd ht hb
    · exact beq_iff_eq.mp hb
  · intro h r hr
    rw [Bool.or_eq_true_iff]
    by_cases ht : r.type = "quantile"
    · right
      exact beq_iff_eq.mpr (h r hr ht)
    · left
      exact bne_iff_ne.mpr ht

theorem check_quantiles_errs_eq_nil_iff (rows : List Row) :
    check_quantiles_errs rows = [] ↔
      ¬((∃ r ∈ rows, r.type ≠ "mean" ∧ groupNunique rows r ≠ 7) ∧
        ¬(∀ r ∈ rows, r.type = "mean") ∧
        ¬(∀ r ∈ rows, r.type = "quantile" → r.quantile = some (mkRat 1 2))) := by
  have hcond : (incompleteRows rows ≠ [] ∧
      ¬(onlyMean rows = true ∨ onlyMedian rows = true)) ↔
      ((∃ r ∈ rows, r.type ≠ "mean" ∧ groupNunique rows r ≠ 7) ∧
        ¬(∀ r ∈ rows, r.type = "mean") ∧
        ¬(∀ r ∈ rows, r.type = "quantile" → r.quantile = some (mkRat 1 2))) := by
    rw [incompleteRows_ne_nil_iff, not_or, onlyMean_iff, onlyMedian_iff]
  unfold check_quantiles_errs
  by_cases h : incompleteRows rows ≠ [] ∧
      ¬(onlyMean rows = true ∨ onlyMedian rows = true)
  · rw [if_pos h]
    have hp := hcond.mp h
    constructor
    · intro hx
      exact absurd hx (List.cons_ne_nil _ _)
    · intro hnp
      exact absurd hp hnp
  · rw [if_neg h]
    have hnp := (not_congr hcond).mp h
    exact ⟨fun _ => hnp, fun _ => rfl⟩

/-- C2: with its columns present, check_quantiles returns an error
exactly when some group of non-mean rows (grouped by location,
age_group, horizon, target_end_date) has a distinct-quantile count
different from 7, unless every row has type mean or every quantile-type
row has quantile 0.5; the error, when present, is one single error
carrying the quantiles present per offending group; and a table whose
non-mean groups all count exactly 7 distinct quantiles (for example the
seven canonical quantiles with a duplicated 0.5 row) yields no
error.  -/
theorem check_quantiles_spec (t : Table)
    (hq1 : "type" ∈ t.cols) (hq2 : ∀ c ∈ qCols, c ∈ t.cols) :
    ((check_quantiles_c t).1 = .ok [] ∨
     (check_quantiles_c t).1 = .ok [Err.notAllQuantiles (nqGroups t.rows)]) ∧
    ((check_quantiles_c t).1 = .ok [] ↔
      ¬((∃ r ∈ t.rows, r.type ≠ "mean" ∧ groupNunique t.rows r ≠ 7) ∧
        ¬(∀ r ∈ t.rows, r.type = "mean") ∧
        ¬(∀ r ∈ t.rows, r.type = "quantile" → r.quantile = some (mkRat 1 2)))) ∧
    ((∀ r ∈ t.rows, r.type ≠ "mean" → groupNunique t.rows r = 7) →
      (check_quantiles_c t).1 = .ok []) := by
  have hres : (check_quantiles_c t).1 = .ok (check_quantiles_errs t.rows) := by
    unfold check_quantiles_c
    rw [if_pos hq1, if_pos hq2]
  have hok : (check_quantiles_c t).1 = .ok [] ↔ check_quantiles_errs t.rows = [] := by
    rw [hres]
    simp
  refine ⟨?_, hok.trans (check_quantiles_errs_eq_nil_iff t.rows), ?_⟩
  · rw [hres]
    unfold check_quantiles_errs
    split
    · right
      rfl
    · left
      rfl
  · intro h
    have hinc : incompleteRows t.rows = [] := by
      by_contra hne
      obtain ⟨r, hr, hty, hnq⟩ := (incompleteRows_ne_nil_iff t.rows).mp hne
      exact hnq (h r hr hty)
    rw [hok]
    unfold check_quantiles_errs
    rw [if_neg (fun hc => hc.1 hinc)]

/-- C2 witness: the seven canonical quantiles plus a duplicated 0.5 row
in one group yield no quantile-completeness error.  -/
theorem check_quantiles_spec_witness :
    (check_quantiles_c wTableQ).1 = .ok [] :=
  (check_quantiles_spec wTableQ (by decide) (by decide)).2.2 (by decide)

/-- C3 counterexample: the value 1.2.3 is not fully numeric after
stripping a single decimal point character, so the claim requires the
non-numeric error to fire on it; check_value returns no error for it,
because str.replace with its defaults removes every decimal point and
the remaining digits 123 count as numeric.  -/
theorem check_value_one_dot_cex :
    specNumericOneDot "1.2.3" = false ∧
    "value" ∈ cexValueTable.cols ∧
    (check_value_c cexValueTable).1 = .ok [] := by
  refine ⟨by decide, by decide, by decide⟩

/-- C3 (amended): check_value performs two independent checks that may
both fire in one result list: the missing-count error exactly when the
value column has missing entries (carrying their count), and the
non-numeric error exactly when some non-null value is not fully numeric
after removing every decimal point character (carrying the offending
literals); a value with two decimal points such as 1.2.3 therefore
counts as numeric and is not reported.  -/
theorem check_value_spec (t : Table) (h : "value" ∈ t.cols) :
    ∃ es, (check_value_c t).1 = .ok es ∧
      (∀ k, Err.missingValues k ∈ es ↔
        (0 < missCount t.rows ∧ k = missCount t.rows)) ∧
      (∀ l, Err.nonNumericValues l ∈ es ↔
        (nonNumericVals t.rows ≠ [] ∧ l = nonNumericVals t.rows)) ∧
      (∀ s, s ∈ nonNumericVals t.rows ↔
        (some s ∈ t.rows.map Row.value ∧ isNumericStr (stripAllDots s) = false)) := by
  refine ⟨check_value_errs t.rows, ?_, ?_, ?_, ?_⟩
  · unfold check_value_c
    rw [if_pos h]
  · intro k
    unfold check_value_errs
    constructor
    · intro hk
      rw [List.mem_append] at hk
      rcases hk with hk | hk
      · by_cases hm : 0 < missCount t.rows
        · rw [if_pos hm] at hk
          rw [List.mem_singleton] at hk
          injection hk with hk
          exact ⟨hm, hk⟩
        · rw [if_neg hm] at hk
          exact absurd hk (List.not_mem_nil _)
      · by_cases hn : nonNumericVals t.rows ≠ []
        · rw [if_pos hn] at hk
          rw [List.mem_singleton] at hk
          exact absurd hk (by simp)
        · rw [if_neg hn] at hk
          exact absurd hk (List.not_mem_nil _)
    · rintro ⟨hm, rfl⟩
      rw [List.mem_append]
      left
      rw [if_pos hm]
      exact List.mem_singleton.mpr rfl
  · intro l
    unfold check_value_errs
    constructor
    · intro hk
      rw [List.mem_append] at hk
      rcases hk with hk | hk
      · by_cases hm : 0 < missCount t.rows
        · rw [if_pos hm] at hk
          rw [List.mem_singleton] at hk
          exact absurd hk (by simp)
        · rw [if_neg hm] at hk
          exact absurd hk (List.not_mem_nil _)
      · by_cases hn : nonNumericVals t.rows ≠ []
        · rw [if_pos hn] at hk
          rw [List.mem_singleton] at hk
          injection hk with hk
          exact ⟨hn, hk⟩
        · rw [if_neg hn] at hk
          exact absurd hk (List.not_mem_nil _)
    · rintro ⟨hn, rfl⟩
      rw [List.mem_append]
      right
      rw [if_pos hn]
      exact List.mem_singleton.mpr rfl
  · intro s
    unfold nonNumericVals
    rw [List.mem_filter, List.mem_filterMap]
    constructor
    · rintro ⟨⟨r, hr, hv⟩, hb⟩
      rw [Bool.not_eq_true'] at hb
      exact ⟨List.mem_map.mpr ⟨r, hr, hv⟩, hb⟩
    · rintro ⟨hv, hb⟩
      obtain ⟨r, hr, hveq⟩ := List.mem_map.mp hv
      refine ⟨⟨r, hr, hveq⟩, ?_⟩
      rw [Bool.not_eq_true']
      exact hb

/-- C3 witness: a table with one missing value, the two-dot value 1.2.3
and the genuinely non-numeric value 1x.  -/
theorem check_value_spec_witness :
    "value" ∈ wValueTable.cols ∧
    ∃ es, (check_value_c wValueTable).1 = .ok es ∧
      (∀ k, Err.missingValues k ∈ es ↔
        (0 < missCount wValueTable.rows ∧ k = missCount wValueTable.rows)) ∧
      (∀ l, Err.nonNumericValues l ∈ es ↔
        (nonNumericVals wValueTable.rows ≠ [] ∧ l = nonNumericVals wValueTable.rows)) ∧
      (∀ s, s ∈ nonNumericVals wValueTable.rows ↔
        (some s ∈ wValueTable.rows.map Row.value ∧
         isNumericStr (stripAllDots s) = false)) :=
  ⟨by decide, check_value_spec wValueTable (by decide)⟩

/-- C8: check_duplicates flags a row exactly when at least one other row
shares its full seven-field key (so at least two rows carry the key),
and the flagged collection is invariant, as a multiset, under any
permutation of the table's rows; with its columns present the check
reports no error exactly when no row is flagged.  -/
theorem check_duplicates_perm_spec (t1 t2 : Table)
    (hcols : ∀ c ∈ dup7Cols, c ∈ t1.cols) (hperm : t1.rows.Perm t2.rows) :
    (duplicatedRows t1.rows).Perm (duplicatedRows t2.rows) ∧
    (∀ r, r ∈ duplicatedRows t1.rows ↔
      (r ∈ t1.rows ∧ 2 ≤ t1.rows.countP (fun s => key7 s == key7 r))) ∧
    ((check_duplicates_c t1).1 = .ok [] ↔ duplicatedRows t1.rows = []) := by
  refine ⟨?_, ?_, ?_⟩
  · unfold duplicatedRows
    have hfun : (fun r => decide (2 ≤ t2.rows.countP (fun s => key7 s == key7 r))) =
        (fun r => decide (2 ≤ t1.rows.countP (fun s => key7 s == key7 r))) := by
      funext r
      rw [hperm.countP_eq]
    rw [hfun]
    exact hperm.filter _
  · intro r
    unfold duplicatedRows
    rw [List.mem_filter, decide_eq_true_iff]
  · unfold check_duplicates_c
    rw [if_pos hcols]
    by_cases h : duplicatedRows t1.rows ≠ []
    · rw [if_pos h]
      constructor
      · intro hx
        injection hx with hx
        exact absurd hx (List.cons_ne_nil _ _)
      · intro hx
        exact absurd hx h
    · rw [if_neg h]
      rw [not_not] at h
      exact ⟨fun _ => h, fun _ => rfl⟩

/-- C8 witness: two orderings of a table with one duplicated key.  -/
theorem check_duplicates_perm_spec_witness :
    (duplicatedRows wTableDupA.rows).Perm (duplicatedRows wTableDupB.rows) ∧
    wRowGood ∈ duplicatedRows wTableDupA.rows :=
  ⟨(check_duplicates_perm_spec wTableDupA wTableDupB (by decide) (by decide)).1,
   ((check_duplicates_perm_spec wTableDupA wTableDupB (by decide)
      (by decide)).2.1 wRowGood).mpr (by decide)⟩

/-- C5: check_forecast_date returns at most one message, that of the
first failing step: an unparseable filename date short-circuits
everything; multiple distinct forecast_date values short-circuit the
remaining steps; the freshness message can never be produced when the
path contains the marker retrospective; and when the first four steps
pass and the path is not retrospective, the result is the freshness
error exactly when the filename date differs from the current
Europe/Berlin date (the today parameter) by more than one day, and no
error exactly otherwise.  -/
theorem check_forecast_date_steps (f : SubmissionFile) (today : Int) :
    (parseDate (fnDate10 f.path) = none →
      check_forecast_date f today =
        .ok (some (Err.badFilenameDate (fnDate10 f.path)))) ∧
    (∀ d, parseDate (fnDate10 f.path) = some d → "forecast_date" ∈ f.cols →
      1 < (dedupFirst f.rawForecastDate).length →
      check_forecast_date f today =
        .ok (some (Err.multipleDates (dedupFirst f.rawForecastDate)))) ∧
    (containsS f.path "retrospective" = true →
      ∀ d t', check_forecast_date f today ≠ .ok (some (Err.notFresh d t'))) ∧
    (∀ d s, parseDate (fnDate10 f.path) = some d → "forecast_date" ∈ f.cols →
      ¬ 1 < (dedupFirst f.rawForecastDate).length →
      f.rawForecastDate.head? = some s → parseDate s = some d →
      containsS f.path "retrospective" = false →
      ((check_forecast_date f today = .ok (some (Err.notFresh d today)) ↔
          1 < (d - today).natAbs) ∧
       (check_forecast_date f today = .ok none ↔ ¬ 1 < (d - today).natAbs))) := by
  refine ⟨?_, ?_, ?_, ?_⟩
  · intro h
    unfold check_forecast_date
    rw [h]
  · intro d hd hc hlen
    unfold check_forecast_date
    rw [hd]
    simp only []
    rw [if_pos hc, if_pos hlen]
  · intro hretro d t'
    unfold check_forecast_date
    cases hpd : parseDate (fnDate10 f.path) with
    | none => simp
    | some fd =>
      simp only []
      by_cases hc : "forecast_date" ∈ f.cols
      · rw [if_pos hc]
        by_cases hlen : 1 < (dedupFirst f.rawForecastDate).length
        · rw [if_pos hlen]
          simp
        · rw [if_neg hlen]
          cases hh : f.rawForecastDate.head? with
          | none => simp
          | some s =>
            simp only []
            cases hps : parseDate s with
            | none => simp
            | some cd =>
              simp only []
              by_cases hne : fd ≠ cd
              · rw [if_pos hne]
                simp
              · rw [if_neg hne]
                rw [if_neg (fun hcond => hcond.1 hretro)]
                simp
      · rw [if_neg hc]
        simp
  · intro d s hd hc hlen hhead hps hretro
    unfold check_forecast_date
    rw [hd]
    simp only []
    rw [if_pos hc, if_neg hlen, hhead]
    simp only []
    rw [hps]
    simp only []
    rw [if_neg (fun hne : d ≠ d => hne rfl)]
    have hr : ¬ containsS f.path "retrospective" = true := by
      rw [hretro]
      simp
    by_cases hfr : 1 < (d - today).natAbs
    · rw [if_pos ⟨hr, hfr⟩]
      constructor
      · exact ⟨fun _ => hfr, fun _ => rfl⟩
      · constructor
        · intro hx
          exact absurd hx (by simp)
        · intro hx
          exact absurd hfr hx
    · rw [if_neg (fun hcond => hfr hcond.2)]
      constructor
      · constructor
        · intro hx
          exact absurd hx (by simp)
        · intro hx
          exact absurd hx hfr
      · exact ⟨fun _ => hfr, fun _ => rfl⟩

/-- C5 witness: a stale fresh-path file triggers the freshness error and
a retrospective path can never produce it.  -/
theorem check_forecast_date_steps_witness :
    check_forecast_date wFileFresh (dayNumber 2020 1 10) =
      .ok (some (Err.notFresh (dayNumber 2020 1 1) (dayNumber 2020 1 10))) ∧
    check_forecast_date wFileRetro (dayNumber 2020 1 10) ≠
      .ok (some (Err.notFresh (dayNumber 2020 1 1) (dayNumber 2020 1 10))) := by
  constructor
  · exact ((check_forecast_date_steps wFileFresh (dayNumber 2020 1 10)).2.2.2
      (dayNumber 2020 1 1) "2020-01-01" (by decide) (by decide) (by decide)
      (by decide) (by decide) (by decide)).1.mpr (by decide)
  · exact (check_forecast_date_steps wFileRetro (dayNumber 2020 1 10)).2.2.1
      (by decide) (dayNumber 2020 1 1) (dayNumber 2020 1 10)

/-- C9 counterexample: a file whose table parses, whose forecast_date
column holds zero values, but whose filename date is unparseable:
check_forecast_date returns the format message instead of raising, and
check_forecast returns a normal error list (the path error, the
filename-date error, and the fatal error from check_target_dates on
the empty frame), contradicting the claim that every such file makes
the call raise and yields no error list.  -/
theorem check_forecast_empty_cex :
    cexFileC9.rawForecastDate = [] ∧
    "forecast_date" ∈ cexFileC9.cols ∧
    check_forecast cexFileC9 0 =
      .ok [Err.badPath, Err.badFilenameDate "zzz.csv",
           Err.fatal "check_target_dates"] := by
  refine ⟨rfl, by decide, by decide⟩

/-- C9 (amended): when the first ten characters of the base filename do
parse as a date, a file without a forecast_date column, or with the
column present but holding no values, makes the unwrapped call to
check_forecast_date inside check_forecast raise, so check_forecast
produces no error list at all for it; with an unparseable filename date
the first step instead returns its format message.  -/
theorem check_forecast_date_uncaught (f : SubmissionFile) (today : Int) (d : Int)
    (hd : parseDate (fnDate10 f.path) = some d)
    (h : "forecast_date" ∉ f.cols ∨ f.rawForecastDate = []) :
    check_forecast_date f today = .error () ∧
    check_forecast f today = .error () := by
  have hdate : check_forecast_date f today = .error () := by
    unfold check_forecast_date
    rw [hd]
    simp only []
    rcases h with h | h
    · rw [if_neg h]
    · by_cases hc : "forecast_date" ∈ f.cols
      · rw [if_pos hc, h]
        rfl
      · rw [if_neg hc]
  refine ⟨hdate, ?_⟩
  unfold check_forecast
  rw [hdate]

/-- C9 witness: parseable filename date, empty forecast_date column.  -/
theorem check_forecast_date_uncaught_witness :
    parseDate (fnDate10 wFileEmptyRaw.path) = some (dayNumber 2020 1 1) ∧
    check_forecast wFileEmptyRaw 0 = .error () :=
  ⟨by decide, (check_forecast_date_uncaught wFileEmptyRaw 0 (dayNumber 2020 1 1)
      (by decide) (Or.inr rfl)).2⟩
